import Mathlib

/-!
Shallow embedding of the convolutional RBM core of the dll repository.

The embedding follows src/include/dll/rbm/standard_crbm.hpp (activation,
energy and free-energy paths of the convolutional RBM) and
src/include/dll/rbm/dyn_rbm.inl (dynamic RBM construction).  Tensors are
modelled as total functions from natural-number indices to real numbers;
the dimensions are carried by the operations, which sum over explicit
ranges.  Randomness (bernoulli draws, gaussian / logistic / ranged noise)
is modelled by explicit noise oracles passed as arguments.
-/

namespace dll

/-- Modelled from the spec: the unit_type enumeration (unit_type.hpp is not
under src/); section 4.1 of the spec lists the supported kinds BINARY,
GAUSSIAN, RELU, RELU6 and RELU1. -/
inductive unit_type where
  | BINARY
  | GAUSSIAN
  | RELU
  | RELU6
  | RELU1
deriving DecidableEq, Repr

/-- Modelled from the spec: is_relu (unit_type.hpp is not under src/);
true exactly for the rectified-linear hidden kinds RELU, RELU6, RELU1. -/
def is_relu : unit_type → Bool
  | unit_type.RELU => true
  | unit_type.RELU6 => true
  | unit_type.RELU1 => true
  | _ => false

/-- A rank-3 tensor (channel, row, column), total over natural indices. -/
abbrev T3 : Type := ℕ → ℕ → ℕ → ℝ

/-- A rank-4 tensor (kernel/batch, channel, row, column). -/
abbrev T4 : Type := ℕ → ℕ → ℕ → ℕ → ℝ

/-- Modelled from the spec: the logistic sigmoid used by the etl library
for BINARY activation probabilities. -/
noncomputable def sigmoid (x : ℝ) : ℝ := 1 / (1 + Real.exp (-x))

/-- Modelled from the spec: a bernoulli draw of probability a, given one
uniform random draw u (section 4.1: s = bernoulli(a)). -/
noncomputable def bernoulli_draw (u a : ℝ) : ℝ := if u < a then 1 else 0

/-- Modelled from the spec: etl conv_4d_valid_flipped restricted to one
sample — the valid cross-correlation of the visible channels with the
kernels applied in flipped orientation (section 4.2).  NC is the number of
visible channels, p x q the kernel size; entry (k, i, j) correlates kernel
k at spatial offset (i, j). -/
noncomputable def conv_4d_valid_flipped (NC p q : ℕ) (v : T3) (w : T4) : T3 :=
  fun k i j =>
    ∑ cc ∈ Finset.range NC, ∑ a ∈ Finset.range p, ∑ bb ∈ Finset.range q,
      v cc (i + a) (j + bb) * w k cc a bb

/-- Modelled from the spec: etl conv_4d_full restricted to one sample —
the full convolution of the K hidden feature maps (of size nh x mh) with
the same kernels (section 4.2); entry (cc, x, y) accumulates every kernel
placement (i, j) whose support covers output position (x, y). -/
noncomputable def conv_4d_full (K nh mh p q : ℕ) (h : T3) (w : T4) : T3 :=
  fun cc x y =>
    ∑ k ∈ Finset.range K, ∑ i ∈ Finset.range nh, ∑ a ∈ Finset.range p,
      ∑ j ∈ Finset.range mh, ∑ bb ∈ Finset.range q,
        if i + a = x ∧ j + bb = y then h k i j * w k cc a bb else 0

/-- Full elementwise dot product of two rank-3 tensors of shape A x B x C. -/
noncomputable def dot3 (A B C : ℕ) (f g : T3) : ℝ :=
  ∑ x ∈ Finset.range A, ∑ y ∈ Finset.range B, ∑ z ∈ Finset.range C,
    f x y z * g x y z

/-- Broadcast of a per-channel scalar bias over its spatial map
(get_b_rep / get_c_rep in the derived conv_rbm class). -/
def bias_rep (bias : ℕ → ℝ) : T3 := fun k _ _ => bias k

/-- Per-element hidden activation probability, the dispatch of
standard_crbm.hpp lines 79-83 (H_PROBS2 / H_PROBS macros select on the
hidden and visible unit kinds); x is the pre-activation (bias plus
convolution output).  Combinations with no probability rule are rejected
by static_assert in the source; they return x unchanged here. -/
noncomputable def hidden_prob (vu hu : unit_type) (x : ℝ) : ℝ :=
  match hu, vu with
  | unit_type.BINARY, unit_type.BINARY => sigmoid x
  | unit_type.BINARY, unit_type.GAUSSIAN => sigmoid ((1 / (0.1 * 0.1)) * x)
  | unit_type.RELU, _ => max x 0
  | unit_type.RELU6, _ => min (max x 0) 6
  | unit_type.RELU1, _ => min (max x 0) 1
  | _, _ => x

/-- Per-element hidden sample, the dispatch of standard_crbm.hpp lines
75-77 and 85 (H_SAMPLE_PROBS macros): u is the uniform draw used by the
bernoulli sampler, ln / r6 / r1 are abstract noise-adding maps modelling
etl logistic_noise and ranged_noise, x is the pre-activation and a the
already-computed activation probability.  GAUSSIAN hidden units are
rejected by static_assert in the source. -/
noncomputable def hidden_sample (hu : unit_type) (u : ℝ) (ln r6 r1 : ℝ → ℝ)
    (x a : ℝ) : ℝ :=
  match hu with
  | unit_type.BINARY => bernoulli_draw u a
  | unit_type.RELU => max (ln x) 0
  | unit_type.RELU6 => min (max (r6 x) 0) 6
  | unit_type.RELU1 => min (max (r1 x) 0) 1
  | unit_type.GAUSSIAN => a

/-- Per-element visible activation probability, the dispatch of
standard_crbm.hpp lines 120-121 (V_PROBS): sigmoid for BINARY, identity
for GAUSSIAN; other visible kinds are rejected by static_assert. -/
noncomputable def visible_prob (vu : unit_type) (x : ℝ) : ℝ :=
  match vu with
  | unit_type.BINARY => sigmoid x
  | _ => x

/-- Per-element visible sample, standard_crbm.hpp lines 125-126
(V_SAMPLE_PROBS): a bernoulli draw for BINARY, additive gaussian noise
(etl normal_noise, modelled by the abstract map g) for GAUSSIAN. -/
noncomputable def visible_sample (vu : unit_type) (u : ℝ) (g : ℝ → ℝ)
    (a : ℝ) : ℝ :=
  match vu with
  | unit_type.BINARY => bernoulli_draw u a
  | _ => g a

/-- The hidden pre-activation of standard_crbm.hpp line 72 plus the bias
broadcast: b_rep + conv_4d_valid_flipped(v, w). -/
noncomputable def hidden_pre (NC p q : ℕ) (w : T4) (b : ℕ → ℝ) (v : T3) : T3 :=
  fun k i j => b k + conv_4d_valid_flipped NC p q v w k i j

/-- The visible pre-activation of standard_crbm.hpp line 116 plus the bias
broadcast: c_rep + conv_4d_full(h_s, w). -/
noncomputable def visible_pre (K nh mh p q : ℕ) (w : T4) (c : ℕ → ℝ)
    (h_s : T3) : T3 :=
  fun cc x y => c cc + conv_4d_full K nh mh p q h_s w cc x y

/-- Embedding of the templated activate_hidden of standard_crbm.hpp lines
58-92.  S is the template sampling flag (the P flag must be true, enforced
by static_assert, so it is not a parameter).  The buffers are returned as
the pair (h_a, h_s); when S is false h_s keeps its initial content hs0, as
the source never writes it.  The sample uses the raw pre-activation for
the RELU family (computed before h_a is overwritten, per the source
comment) and the computed probability for BINARY. -/
noncomputable def activate_hidden (vu hu : unit_type) (S : Bool)
    (NC p q : ℕ) (w : T4) (b : ℕ → ℝ) (v : T3) (u : T3)
    (ln r6 r1 : ℝ → ℝ) (hs0 : T3) : T3 × T3 :=
  let pre := hidden_pre NC p q w b v
  let h_a : T3 := fun k i j => hidden_prob vu hu (pre k i j)
  let h_s : T3 :=
    if S then
      fun k i j => hidden_sample hu (u k i j) ln r6 r1 (pre k i j) (h_a k i j)
    else hs0
  (h_a, h_s)

/-- Embedding of the public single-sample entry point of standard_crbm.hpp
lines 94-96: activate_hidden(h_a, input) forwards to
activate_hidden<true, false>(h_a, h_a, input, input).  With S = false no
random draw is consumed, so the noise oracles are irrelevant; the h_s slot
aliases the output buffer in the source and is never written. -/
noncomputable def activate_hidden_one (vu hu : unit_type) (NC p q : ℕ)
    (w : T4) (b : ℕ → ℝ) (input : T3) : T3 :=
  (activate_hidden vu hu false NC p q w b input (fun _ _ _ => 0)
    id id id input).1

/-- Embedding of the templated activate_visible of standard_crbm.hpp lines
104-131.  Reads only the hidden sample h_s; u is the uniform draw supply
for the bernoulli sampler and g the abstract gaussian noise map
(etl normal_noise); when S is false v_s keeps its initial content vs0. -/
noncomputable def activate_visible (vu : unit_type) (S : Bool)
    (K nh mh p q : ℕ) (w : T4) (c : ℕ → ℝ) (h_s : T3) (u : T3)
    (g : ℝ → ℝ) (vs0 : T3) : T3 × T3 :=
  let pre := visible_pre K nh mh p q w c h_s
  let v_a : T3 := fun cc x y => visible_prob vu (pre cc x y)
  let v_s : T3 :=
    if S then fun cc x y => visible_sample vu (u cc x y) g (v_a cc x y)
    else vs0
  (v_a, v_s)

/-- The batched hidden pre-activation of standard_crbm.hpp line 145 plus
the batch bias broadcast (get_batch_b_rep): the leading index ranges over
the minibatch. -/
noncomputable def batch_hidden_pre (NC p q : ℕ) (w : T4) (b : ℕ → ℝ)
    (v : T4) : T4 :=
  fun bb k i j => b k + conv_4d_valid_flipped NC p q (v bb) w k i j

/-- Embedding of batch_activate_hidden of standard_crbm.hpp lines 133-167:
the same per-element laws as activate_hidden applied across the leading
minibatch index. -/
noncomputable def batch_activate_hidden (vu hu : unit_type) (S : Bool)
    (NC p q : ℕ) (w : T4) (b : ℕ → ℝ) (v : T4) (u : T4)
    (ln r6 r1 : ℝ → ℝ) (hs0 : T4) : T4 × T4 :=
  let pre := batch_hidden_pre NC p q w b v
  let h_a : T4 := fun bb k i j => hidden_prob vu hu (pre bb k i j)
  let h_s : T4 :=
    if S then
      fun bb k i j =>
        hidden_sample hu (u bb k i j) ln r6 r1 (pre bb k i j) (h_a bb k i j)
    else hs0
  (h_a, h_s)

/-- The batched visible pre-activation of standard_crbm.hpp line 179 plus
the batch bias broadcast (get_batch_c_rep). -/
noncomputable def batch_visible_pre (K nh mh p q : ℕ) (w : T4) (c : ℕ → ℝ)
    (h_s : T4) : T4 :=
  fun bb cc x y => c cc + conv_4d_full K nh mh p q (h_s bb) w cc x y

/-- Embedding of batch_activate_visible of standard_crbm.hpp lines
169-194. -/
noncomputable def batch_activate_visible (vu : unit_type) (S : Bool)
    (K nh mh p q : ℕ) (w : T4) (c : ℕ → ℝ) (h_s : T4) (u : T4)
    (g : ℝ → ℝ) (vs0 : T4) : T4 × T4 :=
  let pre := batch_visible_pre K nh mh p q w c h_s
  let v_a : T4 := fun bb cc x y => visible_prob vu (pre bb cc x y)
  let v_s : T4 :=
    if S then
      fun bb cc x y => visible_sample vu (u bb cc x y) g (v_a bb cc x y)
    else vs0
  (v_a, v_s)

/-- The machine state visible to the activation operations: the model
parameters w, b, c of the RBM entity and the designated output buffers
(single-sample Gibbs buffers h1/v2 and their batch counterparts). -/
structure crbm_machine where
  w : T4
  b : ℕ → ℝ
  c : ℕ → ℝ
  h1_a : T3
  h1_s : T3
  v2_a : T3
  v2_s : T3
  batch_h_a : T4
  batch_h_s : T4
  batch_v_a : T4
  batch_v_s : T4

/-- activate_hidden as a state transformer: reads w and b, writes only the
hidden output buffers. -/
noncomputable def activate_hidden_st (vu hu : unit_type) (S : Bool)
    (NC p q : ℕ) (m : crbm_machine) (v u : T3) (ln r6 r1 : ℝ → ℝ) :
    crbm_machine :=
  let r := activate_hidden vu hu S NC p q m.w m.b v u ln r6 r1 m.h1_s
  { m with h1_a := r.1, h1_s := r.2 }

/-- activate_visible as a state transformer: reads w and c, writes only
the visible output buffers. -/
noncomputable def activate_visible_st (vu : unit_type) (S : Bool)
    (K nh mh p q : ℕ) (m : crbm_machine) (h_s u : T3) (g : ℝ → ℝ) :
    crbm_machine :=
  let r := activate_visible vu S K nh mh p q m.w m.c h_s u g m.v2_s
  { m with v2_a := r.1, v2_s := r.2 }

/-- batch_activate_hidden as a state transformer. -/
noncomputable def batch_activate_hidden_st (vu hu : unit_type) (S : Bool)
    (NC p q : ℕ) (m : crbm_machine) (v u : T4) (ln r6 r1 : ℝ → ℝ) :
    crbm_machine :=
  let r := batch_activate_hidden vu hu S NC p q m.w m.b v u ln r6 r1
    m.batch_h_s
  { m with batch_h_a := r.1, batch_h_s := r.2 }

/-- batch_activate_visible as a state transformer. -/
noncomputable def batch_activate_visible_st (vu : unit_type) (S : Bool)
    (K nh mh p q : ℕ) (m : crbm_machine) (h_s u : T4) (g : ℝ → ℝ) :
    crbm_machine :=
  let r := batch_activate_visible vu S K nh mh p q m.w m.c h_s u g
    m.batch_v_s
  { m with batch_v_a := r.1, batch_v_s := r.2 }

/-- Modelled from the spec: cpp_utils nan_check_deep (not under src/) — a
post-computation scan of a tensor which is fatal when a NaN/Inf is
detected (section 7: NumericDivergenceError).  The detector itself is an
abstract predicate bad on tensors; a positive detection aborts. -/
def nan_check_deep (bad : T3 → Bool) (t : T3) : Except Unit T3 :=
  if bad t then Except.error () else Except.ok t

/-- The NaN-check sequence shared by the activation paths of
standard_crbm.hpp (lines 87-91, 123-130, 160-166, 186-193): the
probability output r.1 is always checked, the sampled output r.2 only
when S is true; the pair is returned only when every check passes. -/
def checked (S : Bool) (bad : T3 → Bool) (r : T3 × T3) :
    Except Unit (T3 × T3) :=
  match nan_check_deep bad r.1 with
  | Except.error e => Except.error e
  | Except.ok _ =>
    if S then
      match nan_check_deep bad r.2 with
      | Except.error e => Except.error e
      | Except.ok _ => Except.ok r
    else Except.ok r

/-- activate_hidden together with its NaN checks, standard_crbm.hpp lines
87-91: a detected NaN aborts instead of returning the output. -/
noncomputable def activate_hidden_run (vu hu : unit_type) (S : Bool)
    (bad : T3 → Bool) (NC p q : ℕ) (w : T4) (b : ℕ → ℝ) (v : T3) (u : T3)
    (ln r6 r1 : ℝ → ℝ) (hs0 : T3) : Except Unit (T3 × T3) :=
  checked S bad (activate_hidden vu hu S NC p q w b v u ln r6 r1 hs0)

/-- activate_visible together with its NaN checks, standard_crbm.hpp lines
123-130: a detected NaN aborts instead of returning the output. -/
noncomputable def activate_visible_run (vu : unit_type) (S : Bool)
    (bad : T3 → Bool) (K nh mh p q : ℕ) (w : T4) (c : ℕ → ℝ) (h_s : T3)
    (u : T3) (g : ℝ → ℝ) (vs0 : T3) : Except Unit (T3 × T3) :=
  checked S bad (activate_visible vu S K nh mh p q w c h_s u g vs0)

/-- Embedding of energy_impl of standard_crbm.hpp lines 200-218.  The
dimensions are NC visible channels of n x m, K kernels of p x q, hidden
maps of nh x mh.  tmp is the valid flipped convolution of line 202;
c >> sum_r(v) multiplies each channel bias with the sum of its spatial
map, b >> sum_r(h) likewise for the hidden maps, and h >> tmp is the
elementwise product.  Unsupported unit combinations return 0. -/
noncomputable def energy_impl (vu hu : unit_type) (NC K n m nh mh p q : ℕ)
    (w : T4) (b c : ℕ → ℝ) (v hh : T3) : ℝ :=
  let tmp := conv_4d_valid_flipped NC p q v w
  if vu = unit_type.BINARY ∧ hu = unit_type.BINARY then
    -(∑ cc ∈ Finset.range NC,
        c cc * (∑ x ∈ Finset.range n, ∑ y ∈ Finset.range m, v cc x y))
      - (∑ k ∈ Finset.range K,
          b k * (∑ i ∈ Finset.range nh, ∑ j ∈ Finset.range mh, hh k i j))
      - (∑ k ∈ Finset.range K, ∑ i ∈ Finset.range nh,
          ∑ j ∈ Finset.range mh, hh k i j * tmp k i j)
  else if vu = unit_type.GAUSSIAN ∧ hu = unit_type.BINARY then
    -(∑ cc ∈ Finset.range NC, ∑ x ∈ Finset.range n, ∑ y ∈ Finset.range m,
        (v cc x y - c cc) ^ 2 / 2)
      - (∑ k ∈ Finset.range K,
          b k * (∑ i ∈ Finset.range nh, ∑ j ∈ Finset.range mh, hh k i j))
      - (∑ k ∈ Finset.range K, ∑ i ∈ Finset.range nh,
          ∑ j ∈ Finset.range mh, hh k i j * tmp k i j)
  else 0

/-- Embedding of free_energy_impl of standard_crbm.hpp lines 220-240.
x = b_rep + tmp is the hidden pre-activation; the hidden units are
marginalized through sum(log(1 + exp(x))).  Unsupported unit combinations
return 0. -/
noncomputable def free_energy_impl (vu hu : unit_type)
    (NC K n m nh mh p q : ℕ) (w : T4) (b c : ℕ → ℝ) (v : T3) : ℝ :=
  let tmp := conv_4d_valid_flipped NC p q v w
  if vu = unit_type.BINARY ∧ hu = unit_type.BINARY then
    -(∑ cc ∈ Finset.range NC,
        c cc * (∑ x ∈ Finset.range n, ∑ y ∈ Finset.range m, v cc x y))
      - (∑ k ∈ Finset.range K, ∑ i ∈ Finset.range nh,
          ∑ j ∈ Finset.range mh, Real.log (1 + Real.exp (b k + tmp k i j)))
  else if vu = unit_type.GAUSSIAN ∧ hu = unit_type.BINARY then
    -(∑ cc ∈ Finset.range NC, ∑ x ∈ Finset.range n, ∑ y ∈ Finset.range m,
        (v cc x y - c cc) ^ 2 / 2)
      - (∑ k ∈ Finset.range K, ∑ i ∈ Finset.range nh,
          ∑ j ∈ Finset.range mh, Real.log (1 + Real.exp (b k + tmp k i j)))
  else 0

/-- The quadratic visible term of the spec, section 4.3: the sum of
(v - c)^2 / 2 over the visible tensor, with the channel bias broadcast. -/
noncomputable def quad_term (NC n m : ℕ) (c : ℕ → ℝ) (v : T3) : ℝ :=
  ∑ cc ∈ Finset.range NC, ∑ x ∈ Finset.range n, ∑ y ∈ Finset.range m,
    (v cc x y - c cc) ^ 2 / 2

/-- The energy formula claimed for the GAUSSIAN/BINARY combination,
written from the claim text: E(v,h) = sum (v-c)^2/2 - b.h - h.(W*v), the
BINARY/BINARY energy with -c.v replaced by the quadratic visible term. -/
noncomputable def energy_claim_gaussian (NC K n m nh mh p q : ℕ) (w : T4)
    (b c : ℕ → ℝ) (v hh : T3) : ℝ :=
  quad_term NC n m c v - dot3 K nh mh (bias_rep b) hh
    - dot3 K nh mh hh (conv_4d_valid_flipped NC p q v w)

/-- The closed-form free energy claimed for BINARY hidden units, written
from the claim text: F(v) = -c.v - sum log(1 + exp(b + W*v)), with the
convolution output in place of the dense product and the channel bias
broadcast. -/
noncomputable def free_energy_claim (NC K n m nh mh p q : ℕ) (w : T4)
    (b c : ℕ → ℝ) (v : T3) : ℝ :=
  -(dot3 NC n m (bias_rep c) v)
    - (∑ k ∈ Finset.range K, ∑ i ∈ Finset.range nh, ∑ j ∈ Finset.range mh,
        Real.log (1 + Real.exp
          (b k + conv_4d_valid_flipped NC p q v w k i j)))

/-- Embedding of the dyn_rbm data members of dyn_rbm.inl lines 40-65:
weights, biases, the backup copies held through unique_ptr (null modelled
as none), the reconstruction buffers and the dimensions. -/
structure dyn_rbm where
  w : ℕ → ℕ → ℝ
  b : ℕ → ℝ
  c : ℕ → ℝ
  bak_w : Option (ℕ → ℕ → ℝ)
  bak_b : Option (ℕ → ℝ)
  bak_c : Option (ℕ → ℝ)
  v1 : ℕ → ℝ
  h1_a : ℕ → ℝ
  h1_s : ℕ → ℝ
  v2_a : ℕ → ℝ
  v2_s : ℕ → ℝ
  h2_a : ℕ → ℝ
  h2_s : ℕ → ℝ
  num_visible : ℕ
  num_hidden : ℕ
  batch_size : ℕ

/-- Embedding of the default constructor dyn_rbm() (dyn_rbm.inl line 67):
the dyn containers are empty (their junk content is the explicit
parameters w0 ... s7), the unique_ptr backups are null and batch_size
keeps its member initializer 25. -/
def dyn_rbm_default (w0 : ℕ → ℕ → ℝ) (b0 c0 s1 s2 s3 s4 s5 s6 s7 : ℕ → ℝ) :
    dyn_rbm :=
  { w := w0, b := b0, c := c0,
    bak_w := none, bak_b := none, bak_c := none,
    v1 := s1, h1_a := s2, h1_s := s3, v2_a := s4, v2_s := s5,
    h2_a := s6, h2_s := s7,
    num_visible := 0, num_hidden := 0, batch_size := 25 }

/-- Embedding of the sizing constructor dyn_rbm(num_visible, num_hidden)
of dyn_rbm.inl lines 75-91.  g is the stream of draws of the
normal_generator (modelled from the spec: etl normal_generator produces
independent zero-mean unit-variance gaussian draws); the source assigns
w = normal_generator() * 0.1 after zero-initializing b and c.  The
reconstruction buffers are allocated but not initialized (junk parameters
s1 ... s7); the unique_ptr backups are null. -/
def dyn_rbm_init (nv nh : ℕ) (g : ℕ → ℕ → ℝ)
    (s1 s2 s3 s4 s5 s6 s7 : ℕ → ℝ) : dyn_rbm :=
  { w := fun i j => g i j * 0.1,
    b := fun _ => 0, c := fun _ => 0,
    bak_w := none, bak_b := none, bak_c := none,
    v1 := s1, h1_a := s2, h1_s := s3, v2_a := s4, v2_s := s5,
    h2_a := s6, h2_s := s7,
    num_visible := nv, num_hidden := nh, batch_size := 25 }

/-- Embedding of init_layer(nv, nh) of dyn_rbm.inl lines 93-110: resizes
and reinitializes w, b, c and the reconstruction buffers exactly as the
sizing constructor does, leaving the backup pointers untouched. -/
def init_layer (rbm : dyn_rbm) (nv nh : ℕ) (g : ℕ → ℕ → ℝ)
    (s1 s2 s3 s4 s5 s6 s7 : ℕ → ℝ) : dyn_rbm :=
  { rbm with
    w := fun i j => g i j * 0.1,
    b := fun _ => 0, c := fun _ => 0,
    v1 := s1, h1_a := s2, h1_s := s3, v2_a := s4, v2_s := s5,
    h2_a := s6, h2_s := s7,
    num_visible := nv, num_hidden := nh }

/-- Constant-zero rank-3 tensor, used as a concrete test input. -/
def zero3 : T3 := fun _ _ _ => 0

/-- Constant-one rank-3 tensor, used as a concrete test input. -/
def ones3 : T3 := fun _ _ _ => 1

/-- Constant-zero rank-4 tensor, used as a concrete test input. -/
def zero4 : T4 := fun _ _ _ _ => 0

/-- Constant-one rank-4 tensor, used as a concrete test input. -/
def ones4 : T4 := fun _ _ _ _ => 1

/-- Constant-zero vector, used as a concrete test input. -/
def zerov : ℕ → ℝ := fun _ => 0

/-- A NaN detector that never fires, used as a concrete test oracle. -/
def never_nan : T3 → Bool := fun _ => false

/-- The sigmoid is nonnegative. -/
theorem sigmoid_nonneg (x : ℝ) : 0 ≤ sigmoid x := by
  unfold sigmoid; positivity

/-- The sigmoid is at most one. -/
theorem sigmoid_le_one (x : ℝ) : sigmoid x ≤ 1 := by
  unfold sigmoid
  rw [div_le_one (by positivity)]
  linarith [Real.exp_pos (-x)]

/-- The sigmoid is injective. -/
theorem sigmoid_inj (a b : ℝ) (h : sigmoid a = sigmoid b) : a = b := by
  unfold sigmoid at h
  have ha := Real.exp_pos (-a)
  have hb := Real.exp_pos (-b)
  rw [div_eq_div_iff (by linarith) (by linarith)] at h
  have h2 : Real.exp (-a) = Real.exp (-b) := by linarith
  have h3 := Real.exp_injective h2
  linarith

/-- A passed NaN check pipeline guarantees the returned outputs are
clean: the probability tensor unconditionally, the sample when it was
requested. -/
theorem checked_ok (S : Bool) (bad : T3 → Bool) (r out : T3 × T3)
    (h : checked S bad r = Except.ok out) :
    bad out.1 = false ∧ (S = true → bad out.2 = false) := by
  by_cases h1 : bad r.1
  · simp [checked, nan_check_deep, h1] at h
  · cases S
    · simp [checked, nan_check_deep, h1] at h
      subst h
      simp [h1]
    · by_cases h2 : bad r.2
      · simp [checked, nan_check_deep, h1, h2] at h
      · simp [checked, nan_check_deep, h1, h2] at h
        subst h
        simp [h1, h2]

/-- A detected NaN in the probability output is fatal: the pipeline
aborts. -/
theorem checked_fatal (S : Bool) (bad : T3 → Bool) (r : T3 × T3)
    (h1 : bad r.1 = true) : checked S bad r = Except.error () := by
  simp [checked, nan_check_deep, h1]

/-- A double sum over a rectangle of an indicator-guarded term collapses
to the guarded value when it lies inside the rectangle. -/
theorem sum_sum_ite_eq (n m t s : ℕ) (ht : t < n) (hs : s < m)
    (G : ℕ → ℕ → ℝ) :
    (∑ x ∈ Finset.range n, ∑ y ∈ Finset.range m,
      if t = x ∧ s = y then G x y else 0) = G t s := by
  have h1 : ∀ x ∈ Finset.range n,
      (∑ y ∈ Finset.range m, if t = x ∧ s = y then G x y else 0)
        = if t = x then G x s else 0 := by
    intro x _
    by_cases hx : t = x
    · subst hx
      simp only [true_and, if_pos rfl]
      rw [Finset.sum_ite_eq (Finset.range m) s (fun y => G t y)]
      simp [hs]
    · simp [hx]
  rw [Finset.sum_congr rfl h1,
    Finset.sum_ite_eq (Finset.range n) t (fun x => G x s)]
  simp [ht]

/-- The valid cross-correlation with flipped kernels and the full
convolution with the same kernels are adjoint transforms: pairing the
hidden-side output against a hidden tensor equals pairing the visible
tensor against the visible-side output.  This is the sense in which the
flipped orientation of the hidden transform exactly inverts during the
visible-side reconstruction. -/
theorem conv_adjoint (NC K n m p q : ℕ) (hp : p ≤ n) (hq : q ≤ m)
    (v : T3) (w : T4) (t : T3) :
    dot3 K (n - p + 1) (m - q + 1) (conv_4d_valid_flipped NC p q v w) t
      = dot3 NC n m v (conv_4d_full K (n - p + 1) (m - q + 1) p q t w) := by
  simp only [dot3, conv_4d_valid_flipped, conv_4d_full, Finset.sum_mul,
    Finset.mul_sum, mul_ite, mul_zero]
  -- index orders: LHS (k,i,j,c,a,b); RHS (c,x,y,k,i,a,j,b)
  -- bubble c outward on the LHS: (k,i,j,c,a,b) to (c,k,i,j,a,b)
  conv_lhs => enter [2, k, 2, i]; rw [Finset.sum_comm]
  conv_lhs => enter [2, k]; rw [Finset.sum_comm]
  conv_lhs => rw [Finset.sum_comm]
  -- bubble y inward on the RHS: (c,x,y,k,i,a,j,b) to (c,x,k,i,a,j,b,y)
  conv_rhs => enter [2, c, 2, x]; rw [Finset.sum_comm]
  conv_rhs => enter [2, c, 2, x, 2, k]; rw [Finset.sum_comm]
  conv_rhs => enter [2, c, 2, x, 2, k, 2, i]; rw [Finset.sum_comm]
  conv_rhs => enter [2, c, 2, x, 2, k, 2, i, 2, a]; rw [Finset.sum_comm]
  conv_rhs => enter [2, c, 2, x, 2, k, 2, i, 2, a, 2, j]; rw [Finset.sum_comm]
  -- bubble x inward on the RHS: (c,x,k,i,a,j,b,y) to (c,k,i,a,j,b,x,y)
  conv_rhs => enter [2, c]; rw [Finset.sum_comm]
  conv_rhs => enter [2, c, 2, k]; rw [Finset.sum_comm]
  conv_rhs => enter [2, c, 2, k, 2, i]; rw [Finset.sum_comm]
  conv_rhs => enter [2, c, 2, k, 2, i, 2, a]; rw [Finset.sum_comm]
  conv_rhs => enter [2, c, 2, k, 2, i, 2, a, 2, j]; rw [Finset.sum_comm]
  -- now LHS (c,k,i,j,a,b); RHS (c,k,i,a,j,b,x,y)
  refine Finset.sum_congr rfl fun c hc => Finset.sum_congr rfl fun k hk => ?_
  conv_lhs => enter [2, i]; rw [Finset.sum_comm]
  refine Finset.sum_congr rfl fun i hi => Finset.sum_congr rfl fun a ha =>
    Finset.sum_congr rfl fun j hj => Finset.sum_congr rfl fun bb hb => ?_
  rw [Finset.mem_range] at hi ha hj hb
  rw [sum_sum_ite_eq n m (i + a) (j + bb) (by omega) (by omega)
    (fun x y => v c x y * (t k i j * w k c a bb))]
  ring

/-- C6: the hidden pre-activation is the valid cross-correlation of the
visible channels with flipped kernels (conv_4d_valid_flipped) plus the
bias broadcast, the visible-side pre-activation is the full convolution
of the hidden maps with the same kernels (conv_4d_full) plus the bias
broadcast, and the two transforms applied with the same W are adjoint —
the mutually inverse orientations of the kernels. -/
theorem c6_conv_orientations (NC K n m p q : ℕ) (w : T4) (b c : ℕ → ℝ)
    (v t : T3) (hp : p ≤ n) (hq : q ≤ m) :
    (hidden_pre NC p q w b v
      = fun k i j => b k + conv_4d_valid_flipped NC p q v w k i j) ∧
    (visible_pre K (n - p + 1) (m - q + 1) p q w c t
      = fun cc x y =>
          c cc + conv_4d_full K (n - p + 1) (m - q + 1) p q t w cc x y) ∧
    (dot3 K (n - p + 1) (m - q + 1) (conv_4d_valid_flipped NC p q v w) t
      = dot3 NC n m v (conv_4d_full K (n - p + 1) (m - q + 1) p q t w)) :=
  ⟨rfl, rfl, conv_adjoint NC K n m p q hp hq v w t⟩

/-- Witness for C6 at the one-pixel, one-kernel configuration. -/
theorem c6_conv_orientations_witness :
    (1 ≤ 1) ∧ (1 ≤ 1) ∧
    ((hidden_pre 1 1 1 ones4 zerov ones3
        = fun k i j => zerov k + conv_4d_valid_flipped 1 1 1 ones3 ones4 k i j) ∧
      (visible_pre 1 (1 - 1 + 1) (1 - 1 + 1) 1 1 ones4 zerov ones3
        = fun cc x y => zerov cc
            + conv_4d_full 1 (1 - 1 + 1) (1 - 1 + 1) 1 1 ones3 ones4 cc x y) ∧
      (dot3 1 (1 - 1 + 1) (1 - 1 + 1)
          (conv_4d_valid_flipped 1 1 1 ones3 ones4) ones3
        = dot3 1 1 1 ones3
            (conv_4d_full 1 (1 - 1 + 1) (1 - 1 + 1) 1 1 ones3 ones4))) :=
  ⟨Nat.le_refl 1, Nat.le_refl 1,
    c6_conv_orientations 1 1 1 1 1 1 ones4 zerov zerov ones3 ones3
      (Nat.le_refl 1) (Nat.le_refl 1)⟩

/-- C7: the hidden activation probabilities computed by activate_hidden
lie in [0,1] for BINARY hidden units (for both valid visible kinds), are
nonnegative for RELU, lie in [0,6] for RELU6 and in [0,1] for RELU1. -/
theorem c7_prob_bounds (vu hu : unit_type) (S : Bool) (NC p q : ℕ)
    (w : T4) (b : ℕ → ℝ) (v u : T3) (ln r6 r1 : ℝ → ℝ) (hs0 : T3)
    (k i j : ℕ)
    (hvu : vu = unit_type.BINARY ∨ vu = unit_type.GAUSSIAN) :
    (hu = unit_type.BINARY →
      0 ≤ (activate_hidden vu hu S NC p q w b v u ln r6 r1 hs0).1 k i j ∧
      (activate_hidden vu hu S NC p q w b v u ln r6 r1 hs0).1 k i j ≤ 1) ∧
    (hu = unit_type.RELU →
      0 ≤ (activate_hidden vu hu S NC p q w b v u ln r6 r1 hs0).1 k i j) ∧
    (hu = unit_type.RELU6 →
      0 ≤ (activate_hidden vu hu S NC p q w b v u ln r6 r1 hs0).1 k i j ∧
      (activate_hidden vu hu S NC p q w b v u ln r6 r1 hs0).1 k i j ≤ 6) ∧
    (hu = unit_type.RELU1 →
      0 ≤ (activate_hidden vu hu S NC p q w b v u ln r6 r1 hs0).1 k i j ∧
      (activate_hidden vu hu S NC p q w b v u ln r6 r1 hs0).1 k i j ≤ 1) := by
  obtain rfl | rfl := hvu <;>
    refine ⟨fun hh => ?_, fun hh => ?_, fun hh => ?_, fun hh => ?_⟩ <;>
    subst hh
  · exact ⟨sigmoid_nonneg _, sigmoid_le_one _⟩
  · exact le_max_right _ _
  · exact ⟨le_min (le_max_right _ _) (by norm_num), min_le_right _ _⟩
  · exact ⟨le_min (le_max_right _ _) (by norm_num), min_le_right _ _⟩
  · exact ⟨sigmoid_nonneg _, sigmoid_le_one _⟩
  · exact le_max_right _ _
  · exact ⟨le_min (le_max_right _ _) (by norm_num), min_le_right _ _⟩
  · exact ⟨le_min (le_max_right _ _) (by norm_num), min_le_right _ _⟩

/-- Witness for C7 at the BINARY/BINARY configuration and a concrete
one-pixel input. -/
theorem c7_prob_bounds_witness :
    (unit_type.BINARY = unit_type.BINARY →
      0 ≤ (activate_hidden unit_type.BINARY unit_type.BINARY false 1 1 1
        ones4 zerov ones3 zero3 id id id zero3).1 0 0 0 ∧
      (activate_hidden unit_type.BINARY unit_type.BINARY false 1 1 1
        ones4 zerov ones3 zero3 id id id zero3).1 0 0 0 ≤ 1) ∧
    (unit_type.BINARY = unit_type.RELU →
      0 ≤ (activate_hidden unit_type.BINARY unit_type.BINARY false 1 1 1
        ones4 zerov ones3 zero3 id id id zero3).1 0 0 0) ∧
    (unit_type.BINARY = unit_type.RELU6 →
      0 ≤ (activate_hidden unit_type.BINARY unit_type.BINARY false 1 1 1
        ones4 zerov ones3 zero3 id id id zero3).1 0 0 0 ∧
      (activate_hidden unit_type.BINARY unit_type.BINARY false 1 1 1
        ones4 zerov ones3 zero3 id id id zero3).1 0 0 0 ≤ 6) ∧
    (unit_type.BINARY = unit_type.RELU1 →
      0 ≤ (activate_hidden unit_type.BINARY unit_type.BINARY false 1 1 1
        ones4 zerov ones3 zero3 id id id zero3).1 0 0 0 ∧
      (activate_hidden unit_type.BINARY unit_type.BINARY false 1 1 1
        ones4 zerov ones3 zero3 id id id zero3).1 0 0 0 ≤ 1) :=
  c7_prob_bounds unit_type.BINARY unit_type.BINARY false 1 1 1 ones4 zerov
    ones3 zero3 id id id zero3 0 0 0 (Or.inl rfl)

/-- C4: for the BINARY/BINARY combination, energy_impl computes
E(v,h) = -c.v - b.h - h.(W*v), where W*v is the valid flipped convolution
of the visible tensor with the kernels and each bias is broadcast over its
channel's spatial map. -/
theorem c4_energy_binary_binary (NC K n m nh mh p q : ℕ) (w : T4)
    (b c : ℕ → ℝ) (v hh : T3) :
    energy_impl unit_type.BINARY unit_type.BINARY NC K n m nh mh p q
        w b c v hh
      = -(dot3 NC n m (bias_rep c) v) - dot3 K nh mh (bias_rep b) hh
        - dot3 K nh mh hh (conv_4d_valid_flipped NC p q v w) := by
  simp [energy_impl, dot3, bias_rep, Finset.mul_sum]

/-- C2 (amended): for the GAUSSIAN/BINARY combination, energy_impl equals
the BINARY/BINARY energy with the term -c.v replaced by the NEGATED
quadratic visible term, i.e. E(v,h) = -(sum (v-c)^2/2) - b.h - h.(W*v);
the quadratic term enters with a minus sign, not the plus sign of the
claim. -/
theorem c2_energy_gaussian_binary (NC K n m nh mh p q : ℕ) (w : T4)
    (b c : ℕ → ℝ) (v hh : T3) :
    energy_impl unit_type.GAUSSIAN unit_type.BINARY NC K n m nh mh p q
        w b c v hh
      = -(quad_term NC n m c v) - dot3 K nh mh (bias_rep b) hh
        - dot3 K nh mh hh (conv_4d_valid_flipped NC p q v w) := by
  simp [energy_impl, quad_term, dot3, bias_rep, Finset.mul_sum]

/-- C2 (counterexample): at the one-pixel configuration with zero weights
and biases, zero hidden state and visible value 1, energy_impl returns
-1/2 while the claimed formula sum (v-c)^2/2 - b.h - h.(W*v) gives
+1/2. -/
theorem c2_counterexample :
    energy_impl unit_type.GAUSSIAN unit_type.BINARY 1 1 1 1 1 1 1 1
        zero4 zerov zerov ones3 zero3
      ≠ energy_claim_gaussian 1 1 1 1 1 1 1 1 zero4 zerov zerov
        ones3 zero3 := by
  norm_num [energy_impl, energy_claim_gaussian, quad_term, dot3, bias_rep,
    conv_4d_valid_flipped, zero4, zerov, ones3, zero3,
    Finset.sum_range_one]
  rw [if_neg (show ¬unit_type.GAUSSIAN = unit_type.BINARY by decide)]
  norm_num

/-- C3 (amended): for BINARY hidden units, free_energy_impl equals the
closed-form marginal -c.v - sum log(1+exp(b + W*v)) when the visible
units are BINARY; when the visible units are GAUSSIAN the term -c.v is
replaced by the negated quadratic visible term -(sum (v-c)^2/2). -/
theorem c3_free_energy_binary_hidden (NC K n m nh mh p q : ℕ) (w : T4)
    (b c : ℕ → ℝ) (v : T3) :
    (free_energy_impl unit_type.BINARY unit_type.BINARY NC K n m nh mh p q
        w b c v
      = free_energy_claim NC K n m nh mh p q w b c v) ∧
    (free_energy_impl unit_type.GAUSSIAN unit_type.BINARY
        NC K n m nh mh p q w b c v
      = -(quad_term NC n m c v)
        - (∑ k ∈ Finset.range K, ∑ i ∈ Finset.range nh,
            ∑ j ∈ Finset.range mh, Real.log (1 + Real.exp
              (b k + conv_4d_valid_flipped NC p q v w k i j)))) := by
  constructor
  · simp [free_energy_impl, free_energy_claim, quad_term, dot3, bias_rep,
      Finset.mul_sum]
  · simp [free_energy_impl, quad_term, dot3, bias_rep, Finset.mul_sum]

/-- C3 (counterexample): the GAUSSIAN-visible / BINARY-hidden
configuration is a valid configuration with BINARY hidden units, yet at
the one-pixel input with zero weights and biases and visible value 1,
free_energy_impl returns -1/2 - log 2 while the claimed closed form
-c.v - sum log(1+exp(b + W*v)) gives -log 2. -/
theorem c3_counterexample :
    free_energy_impl unit_type.GAUSSIAN unit_type.BINARY 1 1 1 1 1 1 1 1
        zero4 zerov zerov ones3
      ≠ free_energy_claim 1 1 1 1 1 1 1 1 zero4 zerov zerov ones3 := by
  intro hEq
  simp [free_energy_impl, free_energy_claim, dot3, bias_rep,
    conv_4d_valid_flipped, zero4, zerov, ones3,
    Finset.sum_range_one] at hEq

/-- C5: whenever the hidden units are a RELU variant, both energy_impl
and free_energy_impl return exactly zero for every input; both functions
are total, so no error is raised. -/
theorem c5_relu_sentinel (vu hu : unit_type) (NC K n m nh mh p q : ℕ)
    (w : T4) (b c : ℕ → ℝ) (v hh : T3) (hrelu : is_relu hu = true) :
    energy_impl vu hu NC K n m nh mh p q w b c v hh = 0 ∧
    free_energy_impl vu hu NC K n m nh mh p q w b c v = 0 := by
  cases hu <;> simp_all [is_relu, energy_impl, free_energy_impl]

/-- Witness for C5 at the RELU hidden kind and a concrete one-pixel
input. -/
theorem c5_relu_sentinel_witness :
    is_relu unit_type.RELU = true ∧
    (energy_impl unit_type.BINARY unit_type.RELU 1 1 1 1 1 1 1 1
        zero4 zerov zerov ones3 zero3 = 0 ∧
      free_energy_impl unit_type.BINARY unit_type.RELU 1 1 1 1 1 1 1 1
        zero4 zerov zerov ones3 = 0) :=
  ⟨rfl, c5_relu_sentinel unit_type.BINARY unit_type.RELU 1 1 1 1 1 1 1 1
    zero4 zerov zerov ones3 zero3 rfl⟩

/-- C1 (amended): for BINARY hidden units the hidden activation
probability is sigmoid of the pre-activation when the visible units are
BINARY, and sigmoid of the pre-activation scaled by 1/(0.1*0.1) when the
visible units are GAUSSIAN; in both cases the hidden sample is a
bernoulli draw of the computed probability, in both the single-sample and
the batch activation paths. -/
theorem c1_binary_hidden_activation (NC p q : ℕ) (w : T4) (b : ℕ → ℝ)
    (v u : T3) (ln r6 r1 : ℝ → ℝ) (hs0 : T3) (vb ub hsb0 : T4) :
    ((activate_hidden unit_type.BINARY unit_type.BINARY true NC p q
        w b v u ln r6 r1 hs0).1
      = fun k i j => sigmoid (hidden_pre NC p q w b v k i j)) ∧
    ((activate_hidden unit_type.BINARY unit_type.BINARY true NC p q
        w b v u ln r6 r1 hs0).2
      = fun k i j => bernoulli_draw (u k i j)
          (sigmoid (hidden_pre NC p q w b v k i j))) ∧
    ((activate_hidden unit_type.GAUSSIAN unit_type.BINARY true NC p q
        w b v u ln r6 r1 hs0).1
      = fun k i j =>
          sigmoid ((1 / (0.1 * 0.1)) * hidden_pre NC p q w b v k i j)) ∧
    ((activate_hidden unit_type.GAUSSIAN unit_type.BINARY true NC p q
        w b v u ln r6 r1 hs0).2
      = fun k i j => bernoulli_draw (u k i j)
          (sigmoid ((1 / (0.1 * 0.1)) * hidden_pre NC p q w b v k i j))) ∧
    ((batch_activate_hidden unit_type.BINARY unit_type.BINARY true NC p q
        w b vb ub ln r6 r1 hsb0).1
      = fun bb k i j => sigmoid (batch_hidden_pre NC p q w b vb bb k i j)) ∧
    ((batch_activate_hidden unit_type.BINARY unit_type.BINARY true NC p q
        w b vb ub ln r6 r1 hsb0).2
      = fun bb k i j => bernoulli_draw (ub bb k i j)
          (sigmoid (batch_hidden_pre NC p q w b vb bb k i j))) ∧
    ((batch_activate_hidden unit_type.GAUSSIAN unit_type.BINARY true NC p q
        w b vb ub ln r6 r1 hsb0).1
      = fun bb k i j => sigmoid
          ((1 / (0.1 * 0.1)) * batch_hidden_pre NC p q w b vb bb k i j)) ∧
    ((batch_activate_hidden unit_type.GAUSSIAN unit_type.BINARY true NC p q
        w b vb ub ln r6 r1 hsb0).2
      = fun bb k i j => bernoulli_draw (ub bb k i j)
          (sigmoid
            ((1 / (0.1 * 0.1)) * batch_hidden_pre NC p q w b vb bb k i j))) :=
  ⟨rfl, rfl, rfl, rfl, rfl, rfl, rfl, rfl⟩

/-- C1 (counterexample): with GAUSSIAN visible units — a valid visible
kind — and BINARY hidden units, the computed probability at a one-pixel
input with unit weight and visible value 1 is sigmoid(100), not
sigmoid(1) = sigmoid of the pre-activation. -/
theorem c1_counterexample :
    (activate_hidden unit_type.GAUSSIAN unit_type.BINARY false 1 1 1 ones4
        zerov ones3 zero3 id id id zero3).1 0 0 0
      ≠ sigmoid (hidden_pre 1 1 1 ones4 zerov ones3 0 0 0) := by
  intro hEq
  have h1 : (activate_hidden unit_type.GAUSSIAN unit_type.BINARY false 1 1 1
      ones4 zerov ones3 zero3 id id id zero3).1 0 0 0
      = sigmoid ((1 / (0.1 * 0.1)) * hidden_pre 1 1 1 ones4 zerov ones3 0 0 0) :=
    rfl
  rw [h1] at hEq
  have h2 := sigmoid_inj _ _ hEq
  have h3 : hidden_pre 1 1 1 ones4 zerov ones3 0 0 0 = 1 := by
    simp [hidden_pre, conv_4d_valid_flipped, ones4, ones3, zerov,
      Finset.sum_range_one]
  rw [h3] at h2
  norm_num at h2

/-- C8: whenever a checked activation (hidden or visible) returns
normally, its probability output carries no detected NaN, and its sampled
output carries none whenever sampling was requested (S = true); a NaN
detected in the probability output makes the hidden activation abort
instead of returning. -/
theorem c8_nan_checks (vu hu vuv : unit_type) (S Sv : Bool)
    (bad badv : T3 → Bool) (NC p q K nh mh : ℕ) (w : T4) (b c : ℕ → ℝ)
    (v u hsv uv : T3) (ln r6 r1 g : ℝ → ℝ) (hs0 vs0 : T3)
    (out vout : T3 × T3)
    (h1 : activate_hidden_run vu hu S bad NC p q w b v u ln r6 r1 hs0
      = Except.ok out)
    (h2 : activate_visible_run vuv Sv badv K nh mh p q w c hsv uv g vs0
      = Except.ok vout) :
    (bad out.1 = false ∧ (S = true → bad out.2 = false)) ∧
    (badv vout.1 = false ∧ (Sv = true → badv vout.2 = false)) ∧
    (bad (activate_hidden vu hu S NC p q w b v u ln r6 r1 hs0).1 = true →
      activate_hidden_run vu hu S bad NC p q w b v u ln r6 r1 hs0
        = Except.error ()) := by
  have g1 : checked S bad
      (activate_hidden vu hu S NC p q w b v u ln r6 r1 hs0)
      = Except.ok out := h1
  have g2 : checked Sv badv
      (activate_visible vuv Sv K nh mh p q w c hsv uv g vs0)
      = Except.ok vout := h2
  exact ⟨checked_ok _ _ _ _ g1, checked_ok _ _ _ _ g2,
    fun hfat => checked_fatal S bad _ hfat⟩

/-- Witness for C8: with a detector that never fires, both checked
activations return normally and the guarantees hold at a concrete
one-pixel configuration. -/
theorem c8_nan_checks_witness :
    (never_nan (activate_hidden unit_type.BINARY unit_type.BINARY true
        1 1 1 ones4 zerov ones3 zero3 id id id zero3).1 = false ∧
      (true = true → never_nan (activate_hidden unit_type.BINARY
        unit_type.BINARY true 1 1 1 ones4 zerov ones3 zero3 id id id
        zero3).2 = false)) ∧
    (never_nan (activate_visible unit_type.BINARY true 1 1 1 1 1 ones4
        zerov ones3 zero3 id zero3).1 = false ∧
      (true = true → never_nan (activate_visible unit_type.BINARY true
        1 1 1 1 1 ones4 zerov ones3 zero3 id zero3).2 = false)) ∧
    (never_nan (activate_hidden unit_type.BINARY unit_type.BINARY true
        1 1 1 ones4 zerov ones3 zero3 id id id zero3).1 = true →
      activate_hidden_run unit_type.BINARY unit_type.BINARY true never_nan
        1 1 1 ones4 zerov ones3 zero3 id id id zero3
        = Except.error ()) :=
  c8_nan_checks unit_type.BINARY unit_type.BINARY unit_type.BINARY
    true true never_nan never_nan 1 1 1 1 1 1 ones4 zerov zerov
    ones3 zero3 ones3 zero3 id id id id zero3 zero3
    (activate_hidden unit_type.BINARY unit_type.BINARY true 1 1 1 ones4
      zerov ones3 zero3 id id id zero3)
    (activate_visible unit_type.BINARY true 1 1 1 1 1 ones4 zerov ones3
      zero3 id zero3)
    rfl rfl

/-- C9: the single-sample entry point activate_hidden(output, input)
computes the hidden activation probabilities without consuming any
random draw (its result does not depend on the noise oracles), and every
activation operation leaves the model parameters w, b, c untouched,
writing only its designated output buffers. -/
theorem c9_activation_frame (vu hu vuv : unit_type) (S : Bool)
    (NC p q K nh mh : ℕ) (w : T4) (b : ℕ → ℝ) (input u : T3)
    (ln r6 r1 g : ℝ → ℝ) (hs0 : T3) (m : crbm_machine) (v hsv uv : T3)
    (vb ub hb4 ub4 : T4) :
    ((activate_hidden vu hu false NC p q w b input u ln r6 r1 hs0).1
      = activate_hidden_one vu hu NC p q w b input) ∧
    (activate_hidden_one vu hu NC p q w b input
      = fun k i j => hidden_prob vu hu (hidden_pre NC p q w b input k i j)) ∧
    (activate_hidden_st vu hu S NC p q m v u ln r6 r1
      = { m with
          h1_a := (activate_hidden vu hu S NC p q m.w m.b v u ln r6 r1
            m.h1_s).1,
          h1_s := (activate_hidden vu hu S NC p q m.w m.b v u ln r6 r1
            m.h1_s).2 }) ∧
    (activate_visible_st vuv S K nh mh p q m hsv uv g
      = { m with
          v2_a := (activate_visible vuv S K nh mh p q m.w m.c hsv uv g
            m.v2_s).1,
          v2_s := (activate_visible vuv S K nh mh p q m.w m.c hsv uv g
            m.v2_s).2 }) ∧
    (batch_activate_hidden_st vu hu S NC p q m vb ub ln r6 r1
      = { m with
          batch_h_a := (batch_activate_hidden vu hu S NC p q m.w m.b vb ub
            ln r6 r1 m.batch_h_s).1,
          batch_h_s := (batch_activate_hidden vu hu S NC p q m.w m.b vb ub
            ln r6 r1 m.batch_h_s).2 }) ∧
    (batch_activate_visible_st vuv S K nh mh p q m hb4 ub4 g
      = { m with
          batch_v_a := (batch_activate_visible vuv S K nh mh p q m.w m.c
            hb4 ub4 g m.batch_v_s).1,
          batch_v_s := (batch_activate_visible vuv S K nh mh p q m.w m.c
            hb4 ub4 g m.batch_v_s).2 }) ∧
    ((activate_hidden_st vu hu S NC p q m v u ln r6 r1).w = m.w) ∧
    ((activate_hidden_st vu hu S NC p q m v u ln r6 r1).b = m.b) ∧
    ((activate_hidden_st vu hu S NC p q m v u ln r6 r1).c = m.c) ∧
    ((activate_visible_st vuv S K nh mh p q m hsv uv g).w = m.w) ∧
    ((activate_visible_st vuv S K nh mh p q m hsv uv g).b = m.b) ∧
    ((activate_visible_st vuv S K nh mh p q m hsv uv g).c = m.c) ∧
    ((batch_activate_hidden_st vu hu S NC p q m vb ub ln r6 r1).w = m.w) ∧
    ((batch_activate_hidden_st vu hu S NC p q m vb ub ln r6 r1).b = m.b) ∧
    ((batch_activate_hidden_st vu hu S NC p q m vb ub ln r6 r1).c = m.c) ∧
    ((batch_activate_visible_st vuv S K nh mh p q m hb4 ub4 g).w = m.w) ∧
    ((batch_activate_visible_st vuv S K nh mh p q m hb4 ub4 g).b = m.b) ∧
    ((batch_activate_visible_st vuv S K nh mh p q m hb4 ub4 g).c = m.c) :=
  ⟨rfl, rfl, rfl, rfl, rfl, rfl, rfl, rfl, rfl, rfl, rfl, rfl, rfl, rfl,
    rfl, rfl, rfl, rfl⟩

/-- C10: the sizing constructor dyn_rbm(num_visible, num_hidden) and
init_layer on a default-constructed dyn_rbm initialize the hidden bias b
and visible bias c to all zeros and every weight to 0.1 times a draw of
the zero-mean unit-variance normal generator, record the dimensions, and
leave the backup copies bak_w, bak_b, bak_c absent (none). -/
theorem c10_dyn_rbm_initialization (nv nh : ℕ) (g : ℕ → ℕ → ℝ)
    (s1 s2 s3 s4 s5 s6 s7 : ℕ → ℝ) (w0 : ℕ → ℕ → ℝ)
    (b0 c0 t1 t2 t3 t4 t5 t6 t7 : ℕ → ℝ) :
    ((dyn_rbm_init nv nh g s1 s2 s3 s4 s5 s6 s7).b = fun _ => 0) ∧
    ((dyn_rbm_init nv nh g s1 s2 s3 s4 s5 s6 s7).c = fun _ => 0) ∧
    (∀ i j, (dyn_rbm_init nv nh g s1 s2 s3 s4 s5 s6 s7).w i j
      = 0.1 * g i j) ∧
    ((dyn_rbm_init nv nh g s1 s2 s3 s4 s5 s6 s7).bak_w = none) ∧
    ((dyn_rbm_init nv nh g s1 s2 s3 s4 s5 s6 s7).bak_b = none) ∧
    ((dyn_rbm_init nv nh g s1 s2 s3 s4 s5 s6 s7).bak_c = none) ∧
    ((dyn_rbm_init nv nh g s1 s2 s3 s4 s5 s6 s7).num_visible = nv) ∧
    ((dyn_rbm_init nv nh g s1 s2 s3 s4 s5 s6 s7).num_hidden = nh) ∧
    ((init_layer (dyn_rbm_default w0 b0 c0 t1 t2 t3 t4 t5 t6 t7)
        nv nh g s1 s2 s3 s4 s5 s6 s7).b = fun _ => 0) ∧
    ((init_layer (dyn_rbm_default w0 b0 c0 t1 t2 t3 t4 t5 t6 t7)
        nv nh g s1 s2 s3 s4 s5 s6 s7).c = fun _ => 0) ∧
    (∀ i j, (init_layer (dyn_rbm_default w0 b0 c0 t1 t2 t3 t4 t5 t6 t7)
        nv nh g s1 s2 s3 s4 s5 s6 s7).w i j = 0.1 * g i j) ∧
    ((init_layer (dyn_rbm_default w0 b0 c0 t1 t2 t3 t4 t5 t6 t7)
        nv nh g s1 s2 s3 s4 s5 s6 s7).bak_w = none) ∧
    ((init_layer (dyn_rbm_default w0 b0 c0 t1 t2 t3 t4 t5 t6 t7)
        nv nh g s1 s2 s3 s4 s5 s6 s7).bak_b = none) ∧
    ((init_layer (dyn_rbm_default w0 b0 c0 t1 t2 t3 t4 t5 t6 t7)
        nv nh g s1 s2 s3 s4 s5 s6 s7).bak_c = none) ∧
    ((init_layer (dyn_rbm_default w0 b0 c0 t1 t2 t3 t4 t5 t6 t7)
        nv nh g s1 s2 s3 s4 s5 s6 s7).num_visible = nv) ∧
    ((init_layer (dyn_rbm_default w0 b0 c0 t1 t2 t3 t4 t5 t6 t7)
        nv nh g s1 s2 s3 s4 s5 s6 s7).num_hidden = nh) :=
  ⟨rfl, rfl, fun i j => mul_comm (g i j) 0.1, rfl, rfl, rfl, rfl, rfl,
    rfl, rfl, fun i j => mul_comm (g i j) 0.1, rfl, rfl, rfl, rfl, rfl⟩

end dll
